import Mathlib

/-!
Verification of the AlgeLab identity/session backend.

This file gives a shallow embedding of the request handlers, JWT helpers,
authentication middleware, database-access client and GitHub OAuth helpers of
the repository, and proves or refutes the behavioural claims about them.

Conventions of the embedding:
* clock times are epoch seconds as `Nat`;
* the HMAC-SHA256 signing step of the PyJWT library is modelled by the
  abstract keyed function `mac` (an injective pairing of payload and secret);
  a token on the wire is either a well-formed signed token or `malformed`
  (covering tokens PyJWT rejects with a decode error);
* Python `None`-or-value results are `Option`, raised exceptions are `Except`;
* Python string operations used by the source (`str.split()`,
  `str.split(maxsplit=1)`, `str.replace`) are embedded character-faithfully
  for ASCII whitespace.
-/

namespace AlgeLab

/-! ## Python string semantics -/

/-- Words of a character list in the sense of Python `str.split()` with no
arguments: maximal runs of non-whitespace characters, with all whitespace
discarded. `acc` holds the (reversed) word currently being read. -/
def pyWordsAux : List Char → List Char → List (List Char)
  | [], acc => if acc.isEmpty then [] else [acc.reverse]
  | c :: cs, acc =>
    if c.isWhitespace then
      if acc.isEmpty then pyWordsAux cs [] else acc.reverse :: pyWordsAux cs []
    else pyWordsAux cs (c :: acc)

def pyWords (cs : List Char) : List (List Char) := pyWordsAux cs []

/-- Boolean complement of whitespace, the word-character test. -/
def notWS (c : Char) : Bool := ! c.isWhitespace

/-- Python `s.split()`: split on whitespace runs, producing no empty pieces. -/
def pySplit (s : String) : List String := (pyWords s.data).map List.asString

/-- Python `s.split(maxsplit=1)` (whitespace separator): skip leading
whitespace; if nothing remains, the empty list; otherwise the first word,
and — after skipping the whitespace run following it — the remainder of the
string verbatim (trailing whitespace included), when non-empty. -/
def pySplitMax1 (s : String) : List String :=
  let cs := s.data.dropWhile Char.isWhitespace
  if cs.isEmpty then []
  else
    let w := cs.takeWhile notWS
    let rest := (cs.dropWhile notWS).dropWhile Char.isWhitespace
    if rest.isEmpty then [w.asString] else [w.asString, rest.asString]

/-! ## JWT model (src/src/auth/jwt.py) -/

/-- The claims carried by a session token (schemas/models.py `TokenPayload`
plus the `iat` claim written by `create_access_token`). -/
structure TokenPayload where
  sub : String
  exp : Nat
  iat : Nat
deriving DecidableEq, Repr

/-- Abstract model of the HMAC signature over a payload under a secret: an
injective pairing, so distinct secrets or distinct payloads give distinct
signatures on the concrete instances used below. -/
def mac (p : TokenPayload) (secret : Nat) : Nat :=
  (((p.sub.data.map Char.toNat).foldl (fun a c => a * 1114112 + (c + 1)) 0) * 18446744073709551616 + p.exp) * 18446744073709551616 * 18446744073709551616 + p.iat * 18446744073709551616 + secret

structure SignedToken where
  payload : TokenPayload
  sig : Nat
deriving DecidableEq, Repr

/-- A token as received on the wire: either a structurally well-formed signed
token, or garbage that the PyJWT decoder rejects with a decode error
(truncated base64, wrong segment count, invalid JSON, ...). -/
inductive TokenWire
  | tok (t : SignedToken)
  | malformed
deriving DecidableEq, Repr

structure HttpError where
  status : Nat
  detail : String
deriving DecidableEq, Repr

/-- config/base.py: `ACCESS_TOKEN_EXPIRE_MINUTES: int = 1400`. -/
def ACCESS_TOKEN_EXPIRE_MINUTES : Nat := 1400

/-- config/constants.py: `JWT_TOKEN_COOKIE_NAME = "jwt_token"`. -/
def JWT_TOKEN_COOKIE_NAME : String := "jwt_token"

/-- jwt.py `decode_token`: the 401 raised when the expiration check fails. -/
def tokenExpiredError : HttpError := { status := 401, detail := "Token expired" }

/-- jwt.py `decode_token`: the 401 raised on `InvalidTokenError` (bad
signature or structurally invalid token). -/
def credentialsError : HttpError := { status := 401, detail := "Could not validate credentials" }

/-- jwt.py `create_access_token`: expiry is now plus the given lifetime in
seconds, defaulting to `ACCESS_TOKEN_EXPIRE_MINUTES` minutes; the payload is
`{sub, exp, iat}` signed under the configured secret. -/
def create_access_token (subject : String) (expires_delta : Option Nat) (now : Nat) (secret : Nat) : SignedToken :=
  let expire := match expires_delta with
    | some d => now + d
    | none => now + ACCESS_TOKEN_EXPIRE_MINUTES * 60
  let p : TokenPayload := { sub := subject, exp := expire, iat := now }
  { payload := p, sig := mac p secret }

/-- jwt.py `decode_token`: PyJWT first verifies the signature (failure is an
`InvalidTokenError`, mapped to `credentialsError`), then enforces the `exp`
claim (`ExpiredSignatureError`, mapped to `tokenExpiredError`); the handler
then re-checks expiration by hand (`exp < now`, unreachable after the PyJWT
check) before returning the payload. -/
def decode_token (w : TokenWire) (now : Nat) (secret : Nat) : Except HttpError TokenPayload :=
  match w with
  | .malformed => .error credentialsError
  | .tok t =>
    if t.sig = mac t.payload secret then
      if t.payload.exp ≤ now then .error tokenExpiredError
      else if t.payload.exp < now then .error tokenExpiredError
      else .ok t.payload
    else .error credentialsError

/-! ## Claims C3 and C4 -/

/-- C3: minting a token for subject U with positive lifetime d and decoding it
at the minting instant succeeds with `sub = U` and `exp = now + d`; and any
well-signed token whose expiration lies strictly in the past decodes to the
401 error with detail "Token expired". -/
theorem jwt_round_trip_and_expiry (U : String) (d now secret : Nat) (hd : 0 < d)
    (t : SignedToken) (hsig : t.sig = mac t.payload secret) :
    decode_token (.tok (create_access_token U (some d) now secret)) now secret
      = .ok { sub := U, exp := now + d, iat := now }
    ∧ (t.payload.exp < now → decode_token (.tok t) now secret = .error tokenExpiredError) := by
  constructor
  · simp only [decode_token, create_access_token, if_pos rfl]
    have h1 : ¬ (now + d ≤ now) := by omega
    have h2 : ¬ (now + d < now) := by omega
    simp [h1, h2]
  · intro hlt
    have hle : t.payload.exp ≤ now := Nat.le_of_lt hlt
    simp [decode_token, hsig, hle]

theorem jwt_round_trip_and_expiry_witness :
    decode_token (.tok (create_access_token "u1" (some 60) 1000 5)) 1000 5
      = .ok { sub := "u1", exp := 1060, iat := 1000 }
    ∧ (({ payload := { sub := "u1", exp := 900, iat := 0 }, sig := mac { sub := "u1", exp := 900, iat := 0 } 5 } : SignedToken).payload.exp < 1000 →
        decode_token (.tok { payload := { sub := "u1", exp := 900, iat := 0 }, sig := mac { sub := "u1", exp := 900, iat := 0 } 5 }) 1000 5
          = .error tokenExpiredError) :=
  jwt_round_trip_and_expiry "u1" 60 1000 5 (by decide)
    { payload := { sub := "u1", exp := 900, iat := 0 }, sig := mac { sub := "u1", exp := 900, iat := 0 } 5 } rfl

/-- C4: a token whose signature does not verify under the configured secret,
and any structurally malformed token, decode to the 401 error with detail
"Could not validate credentials", which differs from the expiry error. -/
theorem jwt_invalid_signature_error (w : TokenWire) (now secret : Nat)
    (h : w = .malformed ∨ ∃ t, w = .tok t ∧ t.sig ≠ mac t.payload secret) :
    decode_token w now secret = .error credentialsError
    ∧ credentialsError ≠ tokenExpiredError := by
  constructor
  · rcases h with h | ⟨t, rfl, hsig⟩
    · rw [h]; rfl
    · simp [decode_token, hsig]
  · decide

theorem jwt_invalid_signature_error_witness :
    decode_token (.tok { payload := { sub := "u1", exp := 2000, iat := 0 }, sig := mac { sub := "u1", exp := 2000, iat := 0 } 1 }) 1000 2
      = .error credentialsError
    ∧ credentialsError ≠ tokenExpiredError :=
  jwt_invalid_signature_error _ 1000 2
    (Or.inr ⟨_, rfl, by decide⟩)

/-! ## Token extraction from a request (jwt.py `get_token_from_request`) -/

/-- Helper for `pyStartsWith`: does the first list lead the second? -/
def leadsWithAux : List Char → List Char → Bool
  | [], _ => true
  | _ :: _, [] => false
  | p :: ps, c :: cs => p = c && leadsWithAux ps cs

/-- Python `s.startswith(pre)`. -/
def pyStartsWith (s pre : String) : Bool := leadsWithAux pre.data s.data

structure HttpRequest where
  cookies : List (String × String)
  headers : List (String × String)
deriving DecidableEq, Repr

/-- `dict.get` / header lookup on an association list. -/
def lookupKV (l : List (String × String)) (k : String) : Option String :=
  (l.find? (fun p => p.1 = k)).map (fun p => p.2)

/-- Python truthiness of an optional string: `None` and the empty string are
falsy. -/
def pyTruthy : Option String → Bool
  | none => false
  | some s => s ≠ ""

/-- jwt.py `get_token_from_request`: read the `jwt_token` cookie; if that is
falsy (absent or empty) and an `Authorization` header is present and starts
with `Bearer` and a space, the token becomes the header value with every
occurrence of the prefix removed (Python `str.replace` replaces all
occurrences); otherwise the cookie value (possibly the falsy empty string) is
returned as is. -/
def get_token_from_request (req : HttpRequest) : Option String :=
  let token := lookupKV req.cookies JWT_TOKEN_COOKIE_NAME
  if ¬ pyTruthy token ∧ (lookupKV req.headers "Authorization").isSome then
    match lookupKV req.headers "Authorization" with
    | some a => if a ≠ "" ∧ pyStartsWith a "Bearer " then some (a.replace "Bearer " "") else token
    | none => token
  else token

/-- C8: when the `jwt_token` cookie holds a (non-empty) token and the
`Authorization` header holds a different bearer token, extraction returns the
cookie token: the cookie is consulted first and wins. -/
theorem cookie_precedes_header (req : HttpRequest) (c h : String)
    (hc : lookupKV req.cookies JWT_TOKEN_COOKIE_NAME = some c)
    (hne : c ≠ "")
    (hh : lookupKV req.headers "Authorization" = some ("Bearer " ++ h))
    (hdiff : c ≠ h) :
    get_token_from_request req = some c := by
  simp [get_token_from_request, hc, pyTruthy, hne]

theorem cookie_precedes_header_witness :
    get_token_from_request
      { cookies := [("jwt_token", "tokA")], headers := [("Authorization", "Bearer tokB")] }
      = some "tokA" :=
  cookie_precedes_header _ "tokA" "tokB" rfl (by decide) rfl (by decide)

/-- C10 counterexample: with an empty `jwt_token` cookie and no
`Authorization` header, extraction returns the empty string, not `None` as
the claim states. -/
theorem empty_cookie_counterexample :
    get_token_from_request { cookies := [("jwt_token", "")], headers := [] } = some ""
    ∧ (some "" : Option String) ≠ none := by
  constructor
  · rfl
  · decide

/-- C10 amended: an empty `jwt_token` cookie is falsy, so extraction falls
through to a `Bearer`-prefixed `Authorization` header when one is present,
returning the header value with every occurrence of the `Bearer` prefix
removed; when no `Authorization` header is present the function returns the
empty cookie value itself (a falsy value, but not `None`). -/
theorem empty_cookie_falls_through (req : HttpRequest)
    (hc : lookupKV req.cookies JWT_TOKEN_COOKIE_NAME = some "") :
    (∀ a, lookupKV req.headers "Authorization" = some a → a ≠ "" →
      pyStartsWith a "Bearer " = true →
      get_token_from_request req = some (a.replace "Bearer " ""))
    ∧ (lookupKV req.headers "Authorization" = none →
        get_token_from_request req = some "") := by
  constructor
  · intro a ha hne hpre
    simp [get_token_from_request, hc, pyTruthy, ha, hne, hpre]
  · intro ha
    simp [get_token_from_request, hc, pyTruthy, ha]

theorem empty_cookie_falls_through_witness :
    (∀ a, lookupKV ({ cookies := [("jwt_token", "")], headers := [("Authorization", "Bearer tokB")] } : HttpRequest).headers "Authorization" = some a → a ≠ "" →
      pyStartsWith a "Bearer " = true →
      get_token_from_request { cookies := [("jwt_token", "")], headers := [("Authorization", "Bearer tokB")] } = some (a.replace "Bearer " ""))
    ∧ (lookupKV ({ cookies := [("jwt_token", "")], headers := [("Authorization", "Bearer tokB")] } : HttpRequest).headers "Authorization" = none →
        get_token_from_request { cookies := [("jwt_token", "")], headers := [("Authorization", "Bearer tokB")] } = some "") :=
  empty_cookie_falls_through _ rfl

/-! ## Authentication middleware (src/src/auth/middleware.py) -/

/-- The per-request state attributes set by `AuthMiddleware.dispatch`.
`token_expiring_soon = false` models the attribute being absent (the source
only ever sets it to `True`, and later tests `hasattr` and the value). -/
structure ReqState where
  user : Option String
  authenticated : Bool
  token_expiring_soon : Bool
deriving DecidableEq, Repr

/-- middleware.py lines 52-77: extract-and-decode phase. A decoded token sets
`user`/`authenticated` and flags near expiry (`exp - now < 600` over the
integers, i.e. `exp < now + 600`); an absent token, or any exception from
`decode_token` (caught by the blanket `except`), leaves the request
unauthenticated with `user = None`. -/
def processToken (w : Option TokenWire) (now : Nat) (secret : Nat) : ReqState :=
  match w with
  | none => { user := none, authenticated := false, token_expiring_soon := false }
  | some t =>
    match decode_token t now secret with
    | .ok payload =>
      { user := some payload.sub, authenticated := true,
        token_expiring_soon := payload.exp < now + 600 }
    | .error _ => { user := none, authenticated := false, token_expiring_soon := false }

/-- A downstream response: status code plus the session cookies set on it
(cookie values are signed tokens). -/
structure HttpResp where
  status : Nat
  cookies : List (String × SignedToken)
deriving DecidableEq, Repr

/-- `response.set_cookie`: the most recently set cookie wins, modelled by
consing it in front. -/
def set_cookie (r : HttpResp) (k : String) (v : SignedToken) : HttpResp :=
  { r with cookies := (k, v) :: r.cookies }

/-- middleware.py lines 39-47. -/
def skip_paths : List String :=
  ["/health", "/api/auth/github", "/api/auth/github/callback", "/swagger",
   "/redoc", "/docs", "/openapi.json"]

/-- middleware.py `AuthMiddleware.dispatch`: bypass listed path prefixes
(passing `none` for the never-populated request state); otherwise run the
token-processing phase, call the downstream handler with the populated state,
and afterwards — when the request was flagged near-expiry, is authenticated
and the downstream status is below 400 — mint a fresh token for the same
subject with the configured lifetime and overwrite the `jwt_token` cookie on
the response. -/
def dispatch (path : String) (w : Option TokenWire) (now : Nat) (secret : Nat)
    (next : Option ReqState → HttpResp) : HttpResp :=
  if skip_paths.any (fun p => pyStartsWith path p) then next none
  else
    let st := processToken w now secret
    let resp := next (some st)
    if st.token_expiring_soon && st.authenticated && decide (resp.status < 400) then
      match st.user with
      | some uid =>
        set_cookie resp JWT_TOKEN_COOKIE_NAME
          (create_access_token uid (some (ACCESS_TOKEN_EXPIRE_MINUTES * 60)) now secret)
      | none => resp
    else resp

/-- C5: on a non-bypass path with a valid token: if under 600 seconds of
lifetime remain and the downstream status is below 400, the response carries
a freshly minted `jwt_token` cookie whose decoded expiration is strictly
later than the original; with 600 or more seconds remaining the middleware
returns the downstream response untouched. -/
theorem auth_middleware_sliding_refresh (path : String) (t : SignedToken)
    (now secret : Nat) (next : Option ReqState → HttpResp)
    (hpath : skip_paths.any (fun p => pyStartsWith path p) = false)
    (hsig : t.sig = mac t.payload secret)
    (hvalid : now < t.payload.exp) :
    (t.payload.exp < now + 600 →
      (next (some (processToken (some (.tok t)) now secret))).status < 400 →
      ∃ fresh,
        (dispatch path (some (.tok t)) now secret next).cookies.head?
          = some (JWT_TOKEN_COOKIE_NAME, fresh)
        ∧ ∃ p, decode_token (.tok fresh) now secret = .ok p ∧ t.payload.exp < p.exp)
    ∧ (now + 600 ≤ t.payload.exp →
        dispatch path (some (.tok t)) now secret next
          = next (some (processToken (some (.tok t)) now secret))) := by
  have hnle : ¬ (t.payload.exp ≤ now) := by omega
  have hnlt : ¬ (t.payload.exp < now) := by omega
  have hdec : decode_token (.tok t) now secret = .ok t.payload := by
    simp [decode_token, hsig, hnle, hnlt]
  have hst : processToken (some (.tok t)) now secret
      = { user := some t.payload.sub, authenticated := true,
          token_expiring_soon := t.payload.exp < now + 600 } := by
    simp [processToken, hdec]
  constructor
  · intro hsoon hstatus
    rw [hst] at hstatus
    simp [hsoon] at hstatus
    refine ⟨create_access_token t.payload.sub (some (ACCESS_TOKEN_EXPIRE_MINUTES * 60)) now secret, ?_, ?_⟩
    · simp [dispatch, hpath, hst, hsoon, hstatus, set_cookie]
    · refine ⟨{ sub := t.payload.sub, exp := now + ACCESS_TOKEN_EXPIRE_MINUTES * 60, iat := now }, ?_, ?_⟩
      · have h1 : ¬ (now + ACCESS_TOKEN_EXPIRE_MINUTES * 60 ≤ now) := by
          simp [ACCESS_TOKEN_EXPIRE_MINUTES]
        have h2 : ¬ (now + ACCESS_TOKEN_EXPIRE_MINUTES * 60 < now) := by omega
        simp [decode_token, create_access_token, h1, h2]
      · show t.payload.exp < now + ACCESS_TOKEN_EXPIRE_MINUTES * 60
        have h60 : ACCESS_TOKEN_EXPIRE_MINUTES * 60 = 84000 := by
          norm_num [ACCESS_TOKEN_EXPIRE_MINUTES]
        omega
  · intro hfar
    have hnsoon : ¬ (t.payload.exp < now + 600) := by omega
    simp [dispatch, hpath, hst, hnsoon]

theorem auth_middleware_sliding_refresh_witness :
    (({ payload := { sub := "u1", exp := 1500, iat := 0 },
        sig := mac { sub := "u1", exp := 1500, iat := 0 } 3 } : SignedToken).payload.exp < 1000 + 600 →
      ((fun _ => ({ status := 200, cookies := [] } : HttpResp)) (some (processToken (some (.tok { payload := { sub := "u1", exp := 1500, iat := 0 }, sig := mac { sub := "u1", exp := 1500, iat := 0 } 3 })) 1000 3))).status < 400 →
      ∃ fresh,
        (dispatch "/api/user/" (some (.tok { payload := { sub := "u1", exp := 1500, iat := 0 }, sig := mac { sub := "u1", exp := 1500, iat := 0 } 3 })) 1000 3 (fun _ => { status := 200, cookies := [] })).cookies.head?
          = some (JWT_TOKEN_COOKIE_NAME, fresh)
        ∧ ∃ p, decode_token (.tok fresh) 1000 3 = .ok p
            ∧ ({ payload := { sub := "u1", exp := 1500, iat := 0 }, sig := mac { sub := "u1", exp := 1500, iat := 0 } 3 } : SignedToken).payload.exp < p.exp)
    ∧ (1000 + 600 ≤ ({ payload := { sub := "u1", exp := 1500, iat := 0 }, sig := mac { sub := "u1", exp := 1500, iat := 0 } 3 } : SignedToken).payload.exp →
        dispatch "/api/user/" (some (.tok { payload := { sub := "u1", exp := 1500, iat := 0 }, sig := mac { sub := "u1", exp := 1500, iat := 0 } 3 })) 1000 3 (fun _ => { status := 200, cookies := [] })
          = (fun _ => ({ status := 200, cookies := [] } : HttpResp)) (some (processToken (some (.tok { payload := { sub := "u1", exp := 1500, iat := 0 }, sig := mac { sub := "u1", exp := 1500, iat := 0 } 3 })) 1000 3))) :=
  auth_middleware_sliding_refresh "/api/user/"
    { payload := { sub := "u1", exp := 1500, iat := 0 }, sig := mac { sub := "u1", exp := 1500, iat := 0 } 3 }
    1000 3 (fun _ => { status := 200, cookies := [] }) (by decide) rfl (by decide)

/-- C9: the token-processing phase always defines both state attributes, the
authenticated flag is true exactly when a user id is attached, and an absent
token or any decode failure (expired, bad signature, malformed) yields
`user = None` and `authenticated = false` instead of an error. -/
theorem auth_middleware_state_invariant (w : Option TokenWire) (now secret : Nat) :
    ((processToken w now secret).authenticated = true
      ↔ ∃ uid, (processToken w now secret).user = some uid)
    ∧ (w = none →
        processToken w now secret
          = { user := none, authenticated := false, token_expiring_soon := false })
    ∧ (∀ t, w = some t → (decode_token t now secret).isOk = false →
        processToken w now secret
          = { user := none, authenticated := false, token_expiring_soon := false }) := by
  refine ⟨?_, ?_, ?_⟩
  · match w with
    | none => simp [processToken]
    | some t =>
      match h : decode_token t now secret with
      | .ok p => simp [processToken, h]
      | .error e => simp [processToken, h]
  · rintro rfl
    rfl
  · rintro t rfl hfail
    match h : decode_token t now secret with
    | .ok p => rw [h] at hfail; simp [Except.isOk, Except.toBool] at hfail
    | .error e => simp [processToken, h]

theorem auth_middleware_state_invariant_witness :
    ((processToken (some .malformed) 1000 3).authenticated = true
      ↔ ∃ uid, (processToken (some .malformed) 1000 3).user = some uid)
    ∧ (some TokenWire.malformed = none →
        processToken (some .malformed) 1000 3
          = { user := none, authenticated := false, token_expiring_soon := false })
    ∧ (∀ t, some TokenWire.malformed = some t → (decode_token t 1000 3).isOk = false →
        processToken (some .malformed) 1000 3
          = { user := none, authenticated := false, token_expiring_soon := false }) :=
  auth_middleware_state_invariant (some .malformed) 1000 3

/-! ## Database access client (src/src/db/client.py) -/

/-- A row of the `profiles` table. Nullable columns are `Option`. -/
structure ProfileRow where
  user_id : String
  github_username : Option String
  first_name : Option String
  last_name : Option String
deriving DecidableEq, Repr

/-- The `profiles` table, in insertion order. -/
abbrev Db := List ProfileRow

/-- client.py `get_user`: first row whose `user_id` matches, else absent. -/
def get_user (db : Db) (uid : String) : Option ProfileRow :=
  db.find? (fun r => r.user_id = uid)

/-- client.py `get_user_by_github_username`. -/
def get_user_by_github_username (db : Db) (login : String) : Option ProfileRow :=
  db.find? (fun r => r.github_username = some login)

/-- The field set passed as `user_data` by the GitHub flow. -/
structure ProfileUpdate where
  github_username : Option String
  first_name : Option String
  last_name : Option String
deriving DecidableEq, Repr

/-- An SQL update of the supplied field set on a row. -/
def applyUpdate (d : ProfileUpdate) (r : ProfileRow) : ProfileRow :=
  { r with github_username := d.github_username,
           first_name := d.first_name, last_name := d.last_name }

/-- client.py `create_or_update_user`: look up by id; if present, update every
row with that id and return the first updated row; if absent, insert a new row
with `user_id` added to the supplied data and return it. An empty result set
from the write raises a client error. -/
def create_or_update_user (db : Db) (uid : String) (d : ProfileUpdate) :
    Except String (ProfileRow × Db) :=
  match get_user db uid with
  | some _ =>
    let db' := db.map (fun r => if r.user_id = uid then applyUpdate d r else r)
    match db'.filter (fun r => r.user_id = uid) with
    | [] => .error "Failed to create or update user"
    | r :: _ => .ok (r, db')
  | none =>
    let newRow : ProfileRow :=
      { user_id := uid, github_username := d.github_username,
        first_name := d.first_name, last_name := d.last_name }
    .ok (newRow, db ++ [newRow])

/-! ## GitHub user creation (src/src/auth/github.py) -/

/-- The GitHub identity fields used by `create_or_get_user_from_github`
(schemas/models.py `GitHubUser`, restricted to the consumed fields). -/
structure GitHubUser where
  login : String
  id : Nat
  name : Option String
deriving DecidableEq, Repr

/-- github.py lines 155-156: the derived first/last name.
`first_name = name.split()[0] if name else None` and
`last_name = name.split(maxsplit=1)[1] if name and len(name.split()) > 1 else None`,
evaluated in that order. On a non-empty all-whitespace name, `split()` is
empty and the `[0]` raises `IndexError` (`Except.error`). -/
def derive_names (name : Option String) : Except Unit (Option String × Option String) :=
  match name with
  | none => .ok (none, none)
  | some s =>
    let firstE : Except Unit (Option String) :=
      if s = "" then .ok none
      else match pySplit s with
        | [] => .error ()
        | w :: _ => .ok (some w)
    match firstE with
    | .error e => .error e
    | .ok fn =>
      let lastE : Except Unit (Option String) :=
        if s ≠ "" ∧ (pySplit s).length > 1 then
          match pySplitMax1 s with
          | _ :: l :: _ => .ok (some l)
          | _ => .error ()
        else .ok none
      match lastE with
      | .error e => .error e
      | .ok ln => .ok (fn, ln)

/-- github.py `create_or_get_user_from_github`: look up an existing account by
GitHub login; derive the name fields; update the found account, or create one
under the synthesized id `github_<numeric id>`. Any exception (including the
`IndexError` from the name derivation and any database-client error) is
caught and surfaced as a 500. -/
def create_or_get_user_from_github (gh : GitHubUser) (db : Db) :
    Except HttpError (ProfileRow × Db) :=
  let existing := get_user_by_github_username db gh.login
  match derive_names gh.name with
  | .error _ =>
    .error { status := 500,
             detail := "Failed to create or update user: list index out of range" }
  | .ok (fn, ln) =>
    let d : ProfileUpdate := { github_username := some gh.login, first_name := fn, last_name := ln }
    let res := match existing with
      | some existingUser => create_or_update_user db existingUser.user_id d
      | none => create_or_update_user db ("github_" ++ toString gh.id) d
    match res with
    | .ok x => .ok x
    | .error m => .error { status := 500, detail := "Failed to create or update user: " ++ m }

/-! ## List helper lemmas -/

lemma find?_eq_none_of_countP_eq_zero {α : Type} (p : α → Bool) (l : List α)
    (h : l.countP p = 0) : l.find? p = none := by
  induction l with
  | nil => rfl
  | cons a l ih =>
    by_cases hp : p a
    · simp [List.countP_cons, hp] at h
    · simp only [List.find?_cons, hp]
      exact ih (by simpa [List.countP_cons, hp] using h)

lemma find?_append_left_none {α : Type} (p : α → Bool) (l₁ l₂ : List α)
    (h : l₁.find? p = none) : (l₁ ++ l₂).find? p = l₂.find? p := by
  induction l₁ with
  | nil => rfl
  | cons a l ih =>
    by_cases hp : p a
    · simp [List.find?_cons, hp] at h
    · simp only [List.cons_append, List.find?_cons, hp] at h ⊢
      exact ih h

lemma filter_eq_nil_of_countP_eq_zero {α : Type} (p : α → Bool) (l : List α)
    (h : l.countP p = 0) : l.filter p = [] := by
  induction l with
  | nil => rfl
  | cons a l ih =>
    by_cases hp : p a
    · simp [List.countP_cons, hp] at h
    · simp only [List.filter_cons, hp, if_neg]
      simp only [Bool.false_eq_true, if_false]
      exact ih (by simpa [List.countP_cons, hp] using h)

lemma pred_false_of_mem_of_countP_eq_zero {α : Type} (p : α → Bool) (l : List α)
    (h : l.countP p = 0) : ∀ a ∈ l, p a = false := by
  induction l with
  | nil => intro a ha; cases ha
  | cons b l ih =>
    intro a ha
    by_cases hp : p b
    · simp [List.countP_cons, hp] at h
    · rcases List.mem_cons.mp ha with rfl | ha'
      · simpa using hp
      · exact ih (by simpa [List.countP_cons, hp] using h) a ha'

lemma map_eq_self_of_forall {α : Type} (f : α → α) (l : List α)
    (h : ∀ a ∈ l, f a = a) : l.map f = l := by
  induction l with
  | nil => rfl
  | cons a l ih =>
    simp only [List.map_cons, h a (List.mem_cons_self a l),
      ih (fun b hb => h b (List.mem_cons_of_mem a hb))]

instance {ε α : Type} [DecidableEq ε] [DecidableEq α] : DecidableEq (Except ε α) := fun a b =>
  match a, b with
  | .ok x, .ok y =>
    if h : x = y then .isTrue (congrArg Except.ok h)
    else .isFalse (fun hc => h (Except.ok.inj hc))
  | .error x, .error y =>
    if h : x = y then .isTrue (congrArg Except.error h)
    else .isFalse (fun hc => h (Except.error.inj hc))
  | .ok _, .error _ => .isFalse (fun hc => Except.noConfusion hc)
  | .error _, .ok _ => .isFalse (fun hc => Except.noConfusion hc)

/-! ## Claim C6 -/

/-- C6: starting from a table with no row for the GitHub login and no row
under the synthesized id, the first create-or-get call inserts exactly one row
with id `github_<numeric id>`, and a second call with the same identity finds
that row and updates it in place: same returned row, unchanged table, no
duplicate. -/
theorem create_or_get_idempotent (db : Db) (gh : GitHubUser) (fn ln : Option String)
    (hname : derive_names gh.name = .ok (fn, ln))
    (h1 : db.countP (fun r => r.github_username = some gh.login) = 0)
    (h2 : db.countP (fun r => r.user_id = "github_" ++ toString gh.id) = 0) :
    ∃ r1 db1 r2 db2,
      create_or_get_user_from_github gh db = .ok (r1, db1)
      ∧ r1.user_id = "github_" ++ toString gh.id
      ∧ db1.length = db.length + 1
      ∧ db1.countP (fun r => r.github_username = some gh.login) = 1
      ∧ create_or_get_user_from_github gh db1 = .ok (r2, db2)
      ∧ r2 = r1 ∧ db2 = db1 := by
  have hfind1 : get_user_by_github_username db gh.login = none :=
    find?_eq_none_of_countP_eq_zero _ _ h1
  have hfind2 : get_user db ("github_" ++ toString gh.id) = none :=
    find?_eq_none_of_countP_eq_zero _ _ h2
  refine ⟨{ user_id := "github_" ++ toString gh.id, github_username := some gh.login,
            first_name := fn, last_name := ln },
          db ++ [{ user_id := "github_" ++ toString gh.id, github_username := some gh.login,
                   first_name := fn, last_name := ln }],
          { user_id := "github_" ++ toString gh.id, github_username := some gh.login,
            first_name := fn, last_name := ln },
          db ++ [{ user_id := "github_" ++ toString gh.id, github_username := some gh.login,
                   first_name := fn, last_name := ln }], ?_, rfl, ?_, ?_, ?_, rfl, rfl⟩
  · simp [create_or_get_user_from_github, hfind1, hname, create_or_update_user, hfind2]
  · simp
  · rw [List.countP_append, h1]
    simp [List.countP_cons]
  · have hfind1b : get_user_by_github_username
        (db ++ [{ user_id := "github_" ++ toString gh.id, github_username := some gh.login,
                  first_name := fn, last_name := ln }]) gh.login
        = some { user_id := "github_" ++ toString gh.id, github_username := some gh.login,
                 first_name := fn, last_name := ln } := by
      unfold get_user_by_github_username
      rw [find?_append_left_none _ _ _ hfind1]
      simp [List.find?_cons]
    have hfind2b : get_user
        (db ++ [{ user_id := "github_" ++ toString gh.id, github_username := some gh.login,
                  first_name := fn, last_name := ln }]) ("github_" ++ toString gh.id)
        = some { user_id := "github_" ++ toString gh.id, github_username := some gh.login,
                 first_name := fn, last_name := ln } := by
      unfold get_user
      rw [find?_append_left_none _ _ _ hfind2]
      simp [List.find?_cons]
    have hmap : (db ++ [({ user_id := "github_" ++ toString gh.id, github_username := some gh.login,
                           first_name := fn, last_name := ln } : ProfileRow)]).map
        (fun r => if r.user_id = "github_" ++ toString gh.id
          then applyUpdate { github_username := some gh.login, first_name := fn, last_name := ln } r
          else r)
        = db ++ [({ user_id := "github_" ++ toString gh.id, github_username := some gh.login,
                    first_name := fn, last_name := ln } : ProfileRow)] := by
      apply map_eq_self_of_forall
      intro a ha
      rcases List.mem_append.mp ha with ha' | ha'
      · have := pred_false_of_mem_of_countP_eq_zero _ _ h2 a ha'
        simp only [decide_eq_false_iff_not] at this
        simp [this]
      · rcases List.mem_singleton.mp ha' with rfl
        simp [applyUpdate]
    have hfilter : (db ++ [({ user_id := "github_" ++ toString gh.id, github_username := some gh.login,
                              first_name := fn, last_name := ln } : ProfileRow)]).filter
        (fun r => r.user_id = "github_" ++ toString gh.id)
        = [({ user_id := "github_" ++ toString gh.id, github_username := some gh.login,
              first_name := fn, last_name := ln } : ProfileRow)] := by
      rw [List.filter_append, filter_eq_nil_of_countP_eq_zero _ _ h2]
      simp [List.filter_cons]
    simp only [create_or_get_user_from_github, hfind1b, hname, create_or_update_user, hfind2b,
      hmap, hfilter]

theorem create_or_get_idempotent_witness :
    ∃ r1 db1 r2 db2,
      create_or_get_user_from_github { login := "ada", id := 7, name := some "Ada Lovelace" } []
        = .ok (r1, db1)
      ∧ r1.user_id = "github_" ++ toString ({ login := "ada", id := 7, name := some "Ada Lovelace" } : GitHubUser).id
      ∧ db1.length = ([] : Db).length + 1
      ∧ db1.countP (fun r => r.github_username = some ({ login := "ada", id := 7, name := some "Ada Lovelace" } : GitHubUser).login) = 1
      ∧ create_or_get_user_from_github { login := "ada", id := 7, name := some "Ada Lovelace" } db1
        = .ok (r2, db2)
      ∧ r2 = r1 ∧ db2 = db1 :=
  create_or_get_idempotent [] { login := "ada", id := 7, name := some "Ada Lovelace" }
    (some "Ada") (some "Lovelace") (by decide) rfl rfl

/-! ## Claim C7: name splitting -/

lemma pyWords_cons_ws (c : Char) (cs : List Char) (hc : c.isWhitespace = true) :
    pyWords (c :: cs) = pyWords cs := by
  simp [pyWords, pyWordsAux, hc]

lemma pyWordsAux_acc (cs : List Char) : ∀ acc : List Char, acc ≠ [] →
    pyWordsAux cs acc
      = (acc.reverse ++ cs.takeWhile notWS) :: pyWords (cs.dropWhile notWS) := by
  induction cs with
  | nil =>
    intro acc hacc
    have hEmpty : acc.isEmpty = false := by
      cases acc with
      | nil => exact absurd rfl hacc
      | cons a t => rfl
    simp [pyWordsAux, hEmpty, pyWords]
  | cons c cs ih =>
    intro acc hacc
    have hEmpty : acc.isEmpty = false := by
      cases acc with
      | nil => exact absurd rfl hacc
      | cons a t => rfl
    by_cases hc : c.isWhitespace
    · have h1 : notWS c = false := by simp [notWS, hc]
      simp [pyWordsAux, hc, hEmpty, List.takeWhile_cons, List.dropWhile_cons, h1,
        pyWords_cons_ws c cs hc, pyWords]
    · have hc' : c.isWhitespace = false := by simpa using hc
      have h1 : notWS c = true := by simp [notWS, hc']
      rw [List.takeWhile_cons, List.dropWhile_cons]
      simp only [h1, if_true]
      have := ih (c :: acc) (by simp)
      simp only [pyWordsAux, hc', if_false]
      simp only [Bool.false_eq_true, if_false] at *
      rw [this]
      simp

lemma pyWords_cons_word (c : Char) (cs : List Char) (hc : c.isWhitespace = false) :
    pyWords (c :: cs)
      = ((c :: cs).takeWhile notWS) :: pyWords ((c :: cs).dropWhile notWS) := by
  have h1 : notWS c = true := by simp [notWS, hc]
  rw [List.takeWhile_cons, List.dropWhile_cons]
  simp only [h1, if_true]
  show pyWordsAux (c :: cs) [] = _
  simp only [pyWordsAux, hc, Bool.false_eq_true, if_false]
  rw [pyWordsAux_acc cs [c] (by simp)]
  simp

lemma pyWords_dropWhile_ws (cs : List Char) :
    pyWords (cs.dropWhile Char.isWhitespace) = pyWords cs := by
  induction cs with
  | nil => rfl
  | cons c cs ih =>
    by_cases hc : c.isWhitespace
    · rw [List.dropWhile_cons]
      simp only [hc, if_true]
      rw [ih, pyWords_cons_ws c cs hc]
    · have hc' : c.isWhitespace = false := by simpa using hc
      rw [List.dropWhile_cons]
      simp [hc']

lemma pyWords_eq_nil_iff (cs : List Char) :
    pyWords cs = [] ↔ cs.dropWhile Char.isWhitespace = [] := by
  induction cs with
  | nil => simp [pyWords, pyWordsAux]
  | cons c cs ih =>
    by_cases hc : c.isWhitespace
    · rw [pyWords_cons_ws c cs hc, List.dropWhile_cons]
      simp [hc, ih]
    · have hc' : c.isWhitespace = false := by simpa using hc
      rw [pyWords_cons_word c cs hc', List.dropWhile_cons]
      simp [hc']

lemma head_dropWhile_false {α : Type} (p : α → Bool) (l : List α) (c : α) (t : List α)
    (h : l.dropWhile p = c :: t) : p c = false := by
  induction l with
  | nil => cases h
  | cons a l ih =>
    by_cases hp : p a
    · rw [List.dropWhile_cons] at h
      simp only [hp, if_true] at h
      exact ih h
    · have hp' : p a = false := by simpa using hp
      rw [List.dropWhile_cons] at h
      simp only [hp', Bool.false_eq_true, if_false] at h
      cases h
      exact hp'

/-- The remainder of a string after its first word: skip leading whitespace,
skip the first word, skip the whitespace run after it; what is left (verbatim,
trailing whitespace included). -/
def restAfterFirstWord (cs : List Char) : List Char :=
  ((cs.dropWhile Char.isWhitespace).dropWhile notWS).dropWhile Char.isWhitespace

/-- The name derivation exactly as claim C7 states it: the display name is
split on whitespace, the first token becomes the first name, and the
remaining tokens, joined (by single spaces), become the last name, absent
when fewer than two tokens exist. -/
def derive_names_claimed (name : Option String) : Option String × Option String :=
  match name with
  | none => (none, none)
  | some s =>
    match pySplit s with
    | [] => (none, none)
    | [w] => (some w, none)
    | w :: rest => (some w, some (String.intercalate " " rest))

/-- C7 counterexample: for the display name `"Ada Lovelace "` (trailing
space) the code keeps the remainder of the string verbatim, producing the
last name `"Lovelace "`, while the claimed joining of the remaining tokens
would produce `"Lovelace"`. -/
theorem name_split_counterexample :
    derive_names (some "Ada Lovelace ") = .ok (some "Ada", some "Lovelace ")
    ∧ derive_names_claimed (some "Ada Lovelace ") = (some "Ada", some "Lovelace")
    ∧ (some "Lovelace " : Option String) ≠ some "Lovelace" := by
  refine ⟨by decide, by decide, by decide⟩

/-- The amended derivation: an absent or empty display name gives both names
absent; a nonempty all-whitespace name raises (surfaced as a 500 by the
caller); otherwise the first whitespace-separated word becomes the first
name, and, when a second word exists, the last name is the remainder of the
string after the first word and the following whitespace run, kept verbatim
(inner and trailing whitespace preserved, not re-joined). -/
def derive_names_amended (name : Option String) : Except Unit (Option String × Option String) :=
  match name with
  | none => .ok (none, none)
  | some s =>
    if s = "" then .ok (none, none)
    else
      match pyWords s.data with
      | [] => .error ()
      | [w] => .ok (some w.asString, none)
      | w :: _ :: _ => .ok (some w.asString, some (restAfterFirstWord s.data).asString)

/-- C7 amended: the source name derivation agrees with the amended
description on every input. -/
theorem name_split_amended (name : Option String) :
    derive_names name = derive_names_amended name := by
  match name with
  | none => rfl
  | some s =>
    by_cases hs : s = ""
    · simp [derive_names, derive_names_amended, hs]
    · cases hw : pyWords s.data with
      | nil =>
        have hsplit : pySplit s = [] := by simp [pySplit, hw]
        simp [derive_names, derive_names_amended, hs, hsplit, hw]
      | cons w rest1 =>
        cases hrest1 : rest1 with
        | nil =>
          subst hrest1
          have hsplit : pySplit s = [w.asString] := by simp [pySplit, hw]
          simp [derive_names, derive_names_amended, hs, hsplit, hw]
        | cons r rest =>
          subst hrest1
          have hsplit : pySplit s = w.asString :: r.asString :: rest.map List.asString := by
            simp [pySplit, hw]
          have hcs_ne : s.data.dropWhile Char.isWhitespace ≠ [] := by
            intro h0
            have := (pyWords_eq_nil_iff s.data).mpr h0
            rw [hw] at this
            cases this
          obtain ⟨c, cs₀, hcs⟩ : ∃ c cs₀, s.data.dropWhile Char.isWhitespace = c :: cs₀ := by
            cases h : s.data.dropWhile Char.isWhitespace with
            | nil => exact absurd h hcs_ne
            | cons a t => exact ⟨a, t, rfl⟩
          have hc : c.isWhitespace = false := head_dropWhile_false _ _ _ _ hcs
          have hw' : pyWords (c :: cs₀) = w :: r :: rest := by
            rw [← hcs, pyWords_dropWhile_ws]
            exact hw
          rw [pyWords_cons_word c cs₀ hc] at hw'
          obtain ⟨hwEq, hrest⟩ := List.cons.inj hw'
          have hrest2_ne : ((c :: cs₀).dropWhile notWS).dropWhile Char.isWhitespace ≠ [] := by
            intro h0
            have := (pyWords_eq_nil_iff ((c :: cs₀).dropWhile notWS)).mpr h0
            rw [hrest] at this
            cases this
          obtain ⟨d, t2, hd⟩ : ∃ d t2,
              ((c :: cs₀).dropWhile notWS).dropWhile Char.isWhitespace = d :: t2 := by
            cases h : ((c :: cs₀).dropWhile notWS).dropWhile Char.isWhitespace with
            | nil => exact absurd h hrest2_ne
            | cons a t => exact ⟨a, t, rfl⟩
          have hmax : pySplitMax1 s = [w.asString, (d :: t2).asString] := by
            simp only [pySplitMax1]
            rw [hcs, hd, hwEq]
            simp
          have hrafw : restAfterFirstWord s.data = d :: t2 := by
            simp only [restAfterFirstWord]
            rw [hcs, hd]
          simp [derive_names, derive_names_amended, hs, hsplit, hw, hmax, hrafw]

/-! ## Claim C1: GET /user/ (src/src/api/users.py `get_user_info`) -/

/-- The response model of GET /user/ (schemas/models.py `UserInfo`). -/
structure UserInfo where
  user_id : String
  username : String
  first_name : Option String
  last_name : Option String
  avatar_url : Option String
deriving DecidableEq, Repr

/-- An exception raised inside the `try` block of `get_user_info`: either the
`HTTPException` raised by the handler itself, or the `SupabaseClientError`
raised by the database client. -/
inductive PyExc
  | httpExc (status : Nat) (detail : String)
  | supabaseErr (msg : String)
deriving DecidableEq, Repr

/-- Python `str(e)`. Starlette `HTTPException.__str__` renders
`"<status_code>: <detail>"`. -/
def excStr : PyExc → String
  | .httpExc s d => toString s ++ ": " ++ d
  | .supabaseErr m => m

/-- users.py `get_user_info`. `db_get_user` models `db_client.get_user`:
a row, absence, or a raised `SupabaseClientError`. The body runs inside
`try`; a missing row raises `HTTPException(404, "User not found")` from
within that block. The handlers then match in order: `SupabaseClientError`
maps to a 500 with the wrapped detail, and the final blanket
`except Exception` maps everything else — including the 404 `HTTPException`,
which is an `Exception` and not a `SupabaseClientError` — to a 500 with
detail `"Internal server error: " + str(e)`.

One modelling note: for a present row the source computes
`user.get("github_username", "")`; a row whose column is NULL would give
`None` there (failing response validation downstream), which no claim
exercises — the embedding uses the empty string for that case. -/
def get_user_info (user_id : String)
    (db_get_user : String → Except String (Option ProfileRow)) :
    Except HttpError UserInfo :=
  let body : Except PyExc UserInfo :=
    match db_get_user user_id with
    | .error m => .error (.supabaseErr m)
    | .ok none => .error (.httpExc 404 "User not found")
    | .ok (some u) =>
      let avatar_url : Option String :=
        match u.github_username with
        | some g => if g ≠ "" then some ("https://github.com/" ++ g ++ ".png") else none
        | none => none
      .ok { user_id := user_id,
            username := match u.github_username with | some g => g | none => "",
            first_name := u.first_name, last_name := u.last_name,
            avatar_url := avatar_url }
  match body with
  | .ok info => .ok info
  | .error (.supabaseErr m) => .error { status := 500, detail := "Database error: " ++ m }
  | .error e => .error { status := 500, detail := "Internal server error: " ++ excStr e }

/-- C1 (code bug): for an authenticated subject whose profile row is absent
(the lookup returns absence without erroring), the handler does not respond
404 "User not found": the 404 it raises inside the `try` block is swallowed
by the blanket `except Exception` and converted into a 500. -/
theorem get_user_info_missing_profile_is_500 :
    get_user_info "github_1" (fun _ => .ok none)
      = .error { status := 500, detail := "Internal server error: 404: User not found" }
    ∧ ∀ e, get_user_info "github_1" (fun _ => .ok none) = .error e → e.status ≠ 404 := by
  constructor
  · rfl
  · intro e he
    have : e = { status := 500, detail := "Internal server error: 404: User not found" } := by
      have h0 : get_user_info "github_1" (fun _ => .ok none)
          = .error { status := 500, detail := "Internal server error: 404: User not found" } := rfl
      rw [h0] at he
      exact (Except.error.inj he).symm
    rw [this]
    decide

/-! ## Claim C2: GitHub OAuth callback without a code -/

/-- An outbound side effect of the callback flow. -/
inductive OutboundCall
  | tokenExchange
  | userFetch
  | dbOp
deriving DecidableEq, Repr

/-- A plain HTTP response: status and body text. -/
structure PyResponse where
  status : Nat
  body : String
deriving DecidableEq, Repr

/-- Query-parameter lookup (`request.GET.get` / FastAPI query binding). -/
def lookupParam (q : List (String × String)) (k : String) : Option String :=
  (q.find? (fun p => p.1 = k)).map (fun p => p.2)

/-- The FastAPI route layer for src/src/api/auth.py `github_callback`: the
handler declares `code: str` as a required query parameter, so FastAPI
rejects a request without it with a 422 request-validation response before
the handler body — modelled by `handler`, which performs the token exchange
and the rest of the flow — ever runs. -/
def fastapi_github_callback (q : List (String × String))
    (handler : String → PyResponse × List OutboundCall) :
    PyResponse × List OutboundCall :=
  match lookupParam q "code" with
  | none => ({ status := 422, body := "field required" }, [])
  | some c => handler c

/-- algelabApp/views.py `github_callback`, lines 28-33: read `code` from the
query string; when it is absent or empty (falsy), return a 400 JSON error
before any outbound request is made. The exchange-and-login stage that runs
for a present code (lines 35-98) is `rest`. -/
def django_github_callback (q : List (String × String))
    (rest : String → PyResponse × List OutboundCall) :
    PyResponse × List OutboundCall :=
  match lookupParam q "code" with
  | none => ({ status := 400, body := "No code received from GitHub" }, [])
  | some c =>
    if c = "" then ({ status := 400, body := "No code received from GitHub" }, [])
    else rest c

/-- C2 counterexample: on the async (FastAPI) variant, a callback request
without a `code` query parameter is answered with status 422, not 400 as the
claim states. -/
theorem github_callback_missing_code_counterexample :
    (fastapi_github_callback [] (fun _ => ({ status := 200, body := "" }, [.tokenExchange]))).1.status = 422
    ∧ (422 : Nat) ≠ 400 := by
  refine ⟨rfl, by decide⟩

/-- C2 amended: a callback request without a `code` query parameter is
rejected before any outbound call is made, with an explanatory client-error
response: 422 (request validation) in the async variant, 400 with an error
body in the legacy variant. -/
theorem github_callback_missing_code (q : List (String × String))
    (handler rest : String → PyResponse × List OutboundCall)
    (hq : lookupParam q "code" = none) :
    fastapi_github_callback q handler = ({ status := 422, body := "field required" }, [])
    ∧ django_github_callback q rest = ({ status := 400, body := "No code received from GitHub" }, []) := by
  constructor
  · simp [fastapi_github_callback, hq]
  · simp [django_github_callback, hq]

theorem github_callback_missing_code_witness :
    fastapi_github_callback [] (fun _ => ({ status := 200, body := "" }, [.tokenExchange]))
      = ({ status := 422, body := "field required" }, [])
    ∧ django_github_callback [] (fun _ => ({ status := 200, body := "" }, [.tokenExchange]))
      = ({ status := 400, body := "No code received from GitHub" }, []) :=
  github_callback_missing_code [] (fun _ => ({ status := 200, body := "" }, [.tokenExchange]))
    (fun _ => ({ status := 200, body := "" }, [.tokenExchange])) rfl

end AlgeLab
